import Mathlib

/-
  Verification development for the think-inside-the-box browser extension.
  The definitions below are a shallow embedding of the three content-script
  modules (detector, styler, monitor).  DOM handles are modelled as records
  carrying the observable fields the code reads; JS strings are Lean strings;
  JS numbers in the scroll arithmetic are rationals.
-/

namespace ThinkInsideTheBox

/-- Model of a DOM element handle as observed by the content scripts: the
text content, inner and outer markup, and the three spatial facts the
detector queries around the start element of a range (whether the element is
attached to a parent, whether its next sibling is a styled container, and
whether a styled container is found by an ancestor search). -/
structure Element where
  textContent : String
  innerHTML : String
  outerHTML : String
  hasParent : Bool
  nextSiblingIsContainer : Bool
  insideContainer : Bool
deriving DecidableEq

/-- Model of a detected range, mirroring the object literals built in
ThinkBlockDetector.processElements: start element, optional end element,
ordered member elements, and the processed flag. -/
structure Range where
  startElement : Element
  endElement : Option Element
  elements : List Element
  processed : Bool
deriving DecidableEq

/- ---------- string helpers modelling the JS string operations ---------- -/

/-- Whitespace test used by the trim model (the inputs handled by the code
are ASCII text). -/
def isWS (c : Char) : Bool := c == ' ' || c == '\t' || c == '\n' || c == '\r'

/-- Model of JS String.prototype.trim on the character list. -/
def trimL (l : List Char) : List Char :=
  ((l.dropWhile isWS).reverse.dropWhile isWS).reverse

/-- Model of JS String.prototype.trim. -/
def jsTrim (s : String) : String := ⟨trimL s.data⟩

/-- Bool test that the second list is an initial segment of the first. -/
def startsWithL : List Char → List Char → Bool
  | _, [] => true
  | [], _ :: _ => false
  | c :: cs, d :: ds => c == d && startsWithL cs ds

/-- Bool test that pat occurs as a contiguous sublist of hay. -/
def containsSub : List Char → List Char → Bool
  | [], pat => pat.isEmpty
  | c :: rest, pat => startsWithL (c :: rest) pat || containsSub rest pat

/-- Model of JS String.prototype.includes. -/
def strIncludes (s pat : String) : Bool := containsSub s.data pat.data

/-- Splits hay at the first occurrence of pat, returning the part before the
occurrence and the part after it; none when pat does not occur. -/
def removeFirst : List Char → List Char → Option (List Char × List Char)
  | [], pat => if pat.isEmpty then some ([], []) else none
  | c :: rest, pat =>
    if startsWithL (c :: rest) pat then some ([], (c :: rest).drop pat.length)
    else
      match removeFirst rest pat with
      | some (pre, post) => some (c :: pre, post)
      | none => none

/-- Model of JS String.prototype.replace with a string pattern, which
replaces only the first occurrence (here with the empty string). -/
def replaceFirst (s pat : String) : String :=
  match removeFirst s.data pat.data with
  | some (pre, post) => ⟨pre ++ post⟩
  | none => s

/-- Model of text.substring(0, text.indexOf(pat)): the part of the string
before the first occurrence of pat; when pat does not occur, indexOf yields
-1 and substring(0, -1) yields the empty string. -/
def beforeFirst (s pat : String) : String :=
  match removeFirst s.data pat.data with
  | some (pre, _) => ⟨pre⟩
  | none => ""

/-- Model of JS String.prototype.substr(start, len). -/
def jsSubstr (s : String) (start len : Nat) : String :=
  ⟨(s.data.drop start).take len⟩

/- ---------- Range Detector (ThinkBlockDetector, styler.js) ---------- -/

/-- The start marker literal held in the detector constructor. -/
def startMarker : String := "&lt;think&gt;"

/-- The end marker literal held in the detector constructor. -/
def endMarker : String := "&lt;/think&gt;"

/-- The start marker after the inline entity replacement
startMarker.replace(/&lt;/g, <).replace(/&gt;/g, >) in processElements. -/
def decodedStartMarker : String := "<think>"

/-- The end marker after the same entity replacement. -/
def decodedEndMarker : String := "</think>"

/-- An element is recognised as a start marker when its trimmed text equals
the decoded literal (exact match) or its trimmed innerHTML equals the
entity-escaped literal (HTML entity match); both branches of processElements
are guarded by the same open-range condition, so they merge. -/
def isStartMarkerElem (e : Element) : Bool :=
  jsTrim e.textContent == decodedStartMarker || jsTrim e.innerHTML == startMarker

/-- End marker recognition, symmetric to isStartMarkerElem. -/
def isEndMarkerElem (e : Element) : Bool :=
  jsTrim e.textContent == decodedEndMarker || jsTrim e.innerHTML == endMarker

/-- One step of the processElements loop: the accumulator holds the emitted
ranges and the current open range (start element and members so far).
With no open range, only a start marker opens one; with an open range, an
end marker closes and emits it and any other element is appended. -/
def scanStep (acc : List Range × Option (Element × List Element)) (e : Element) :
    List Range × Option (Element × List Element) :=
  match acc.2 with
  | none => if isStartMarkerElem e then (acc.1, some (e, [e])) else (acc.1, none)
  | some (s, els) =>
    if isEndMarkerElem e then
      (acc.1 ++ [{ startElement := s, endElement := some e,
                   elements := els ++ [e], processed := false }], none)
    else (acc.1, some (s, els ++ [e]))

/-- The marker-matching loop of processElements over the candidate element
list; a range left open at the end of the walk is discarded. -/
def buildRanges (l : List Element) : List Range :=
  (l.foldl scanStep ([], none)).1

/-- Model of ThinkBlockDetector.generateRangeKey: the concatenation of the
start element outerHTML, a dash, and the end element outerHTML (the empty
string when the end element is missing, matching endElement?.outerHTML plus
a falsy-default to the empty string). -/
def generateRangeKey (r : Range) : String :=
  r.startElement.outerHTML ++ "-" ++ ((r.endElement.map Element.outerHTML).getD "")

/-- The container check inside isProcessed: the start element has a parent
node and either its next sibling carries the container class or an ancestor
search (closest) from it finds a styled container. -/
def containerNear (e : Element) : Bool :=
  e.hasParent && (e.nextSiblingIsContainer || e.insideContainer)

/-- Model of adding a key to the JS Set of processed blocks. -/
def setAdd (S : List String) (k : String) : List String :=
  if k ∈ S then S else k :: S

/-- Model of deleting a key from the JS Set of processed blocks. -/
def setDelete : List String → String → List String
  | [], _ => []
  | x :: xs, k => if x = k then setDelete xs k else x :: setDelete xs k

/-- Model of ThinkBlockDetector.isProcessed: false when the fingerprint is
unknown; true when the fingerprint is known and a styled container is found
near the start element; otherwise the fingerprint is evicted from the
processed set and false is returned.  The returned pair carries the JS
return value and the updated processed set. -/
def isProcessed (S : List String) (r : Range) : Bool × List String :=
  let key := generateRangeKey r
  if key ∈ S then
    if containerNear r.startElement then (true, S) else (false, setDelete S key)
  else (false, S)

/-- Model of ThinkBlockDetector.markAsProcessed. -/
def markAsProcessed (S : List String) (r : Range) : List String :=
  setAdd S (generateRangeKey r)

/-- The final filter of processElements, ranges.filter(r => !isProcessed(r)),
threading the processed set through the stateful isProcessed calls in
left-to-right order. -/
def filterUnprocessed (S : List String) : List Range → List Range × List String
  | [] => ([], S)
  | r :: rs =>
    let p := isProcessed S r
    let rest := filterUnprocessed p.2 rs
    if p.1 then rest else (r :: rest.1, rest.2)

/-- Model of ThinkBlockDetector.processElements: build the candidate ranges
with the marker-matching walk, then drop those still verifiably processed. -/
def processElements (l : List Element) (S : List String) :
    List Range × List String :=
  filterUnprocessed S (buildRanges l)

/-- Model of ThinkBlockDetector.scanDocument: the selector queries produce
the candidate element snapshot (passed here as the list argument), detection
runs over it, and the optional debug pass only logs, leaving the result
unchanged. -/
def scanDocument (candidates : List Element) (S : List String) :
    List Range × List String :=
  processElements candidates S

/- ---------- Block Styler (ThinkBlockStyler, styler.js) ---------- -/

/-- A child node placed into the content wrapper of a styled container:
either a marker chip built by createMarker, a text line built by assigning
textContent, or a content line built by assigning innerHTML. -/
inductive Child where
  | chip : String → Child
  | textLine : String → Child
  | htmlLine : String → Child
deriving DecidableEq

/-- The styled container built by wrapSingleRange, reduced to the ordered
children of its content wrapper (the generated id and the inline style
writes of applyContainerStyles carry no structure the properties below
depend on). -/
structure ContainerVal where
  children : List Child
deriving DecidableEq

/-- A log of the DOM mutations performed by the styler: containers inserted
via insertBefore and original elements removed via element.remove(). -/
structure DomLog where
  insertedContainers : List ContainerVal
  removedElements : List Element
deriving DecidableEq

/-- The object returned by wrapThinkingBlocks.  The disabled early return
carries no rangeCount field, modelled as none; totalNewHeight is returned
as 0 in both branches (the enabled branch only updates a local variable
from asynchronous setTimeout callbacks after returning). -/
structure WrapResult where
  containers : List ContainerVal
  totalNewHeight : ℚ
  rangeCount : Option Nat
deriving DecidableEq

/-- The slice of the styler settings record the wrap operation branches on. -/
structure StylerSettings where
  enabled : Bool
deriving DecidableEq

/-- The body of the forEach in processRangeElements for the element at
index i of the range: the first element is checked for the entity-escaped
start marker inside its textContent, the last element symmetrically for the
end marker, and every other element becomes a content line carrying its
innerHTML. -/
def processElement (range : Range) (i : Nat) (e : Element) : List Child :=
  let text := e.textContent
  if i == 0 && strIncludes text startMarker then
    let remainingText := jsTrim (replaceFirst text startMarker)
    Child.chip startMarker ::
      (if remainingText != "" then [Child.textLine remainingText] else [])
  else if i == range.elements.length - 1 && strIncludes text endMarker then
    let contentText := jsTrim (beforeFirst text endMarker)
    (if contentText != "" then [Child.textLine contentText] else []) ++
      [Child.chip endMarker]
  else
    [Child.htmlLine e.innerHTML]

/-- The element walk of processRangeElements with an explicit index. -/
def processChildren (range : Range) : Nat → List Element → List Child
  | _, [] => []
  | i, e :: rest => processElement range i e ++ processChildren range (i + 1) rest

/-- Model of ThinkBlockStyler.processRangeElements: the ordered children
appended to the content wrapper.  Every original element is also removed
from the DOM; the removal log is recorded by wrapSingleRange below. -/
def processRangeElements (range : Range) : List Child :=
  processChildren range 0 range.elements

/-- Model of ThinkBlockStyler.wrapSingleRange.  When the start element has a
parent node, the container is created and inserted before the start element,
the range elements are processed into the content wrapper and removed, and
the function then reaches its end without a return statement, so its call
value is undefined (modelled as the inner none).  When the start element has
no parent node, insertBefore throws before any mutation (the error case). -/
def wrapSingleRange (range : Range) :
    Except Unit (Option ContainerVal × DomLog) :=
  if range.startElement.hasParent then
    Except.ok (none,
      { insertedContainers := [⟨processRangeElements range⟩],
        removedElements := range.elements })
  else
    Except.error ()

/-- Model of ThinkBlockStyler.wrapThinkingBlocks: the disabled early return,
and otherwise a forEach over the ranges in which each wrapSingleRange call
value is pushed onto the containers list only when truthy and a per-range
exception is caught and skipped. -/
def wrapThinkingBlocks (settings : StylerSettings) (ranges : List Range) :
    WrapResult × DomLog :=
  if !settings.enabled then
    ({ containers := [], totalNewHeight := 0, rangeCount := none },
     { insertedContainers := [], removedElements := [] })
  else
    let step := fun (acc : List ContainerVal × DomLog) (r : Range) =>
      match wrapSingleRange r with
      | Except.ok (ret, log) =>
        ((match ret with
          | some c => acc.1 ++ [c]
          | none => acc.1),
         { insertedContainers := acc.2.insertedContainers ++ log.insertedContainers,
           removedElements := acc.2.removedElements ++ log.removedElements })
      | Except.error _ => acc
    let out := ranges.foldl step ([], { insertedContainers := [], removedElements := [] })
    ({ containers := out.1, totalNewHeight := 0, rangeCount := some ranges.length },
     out.2)

/-- Recognises a marker chip among container children. -/
def isMarkerChip : Child → Bool
  | Child.chip _ => true
  | _ => false

/-- Recognises a content line (text or markup) among container children. -/
def isContentLine : Child → Bool
  | Child.chip _ => false
  | _ => true

/-- Numeric value of one hexadecimal digit. -/
def hexDigitVal (c : Char) : Option Nat :=
  if '0' ≤ c ∧ c ≤ '9' then some (c.toNat - '0'.toNat)
  else if 'a' ≤ c ∧ c ≤ 'f' then some (c.toNat - 'a'.toNat + 10)
  else if 'A' ≤ c ∧ c ≤ 'F' then some (c.toNat - 'A'.toNat + 10)
  else none

/-- Model of parseInt(s, 16) on the two-character slices taken by
getContrastColor: the longest prefix of hexadecimal digits is parsed and an
input starting with a non-digit yields NaN (modelled as none). -/
def parseIntHex (s : String) : Option Nat :=
  match s.data with
  | [] => none
  | c :: rest =>
    match hexDigitVal c with
    | none => none
    | some v =>
      match rest with
      | [] => some v
      | d :: _ =>
        match hexDigitVal d with
        | none => some v
        | some w => some (16 * v + w)

/-- Model of ThinkBlockStyler.getContrastColor: strip the first hash, parse
the three colour bytes, and compare the brightness
(r*299 + g*587 + b*114) / 1000 against 128; the comparison is stated on the
integer numerator, which is exact.  When any byte fails to parse, the JS
comparison against NaN is false and the white branch is taken. -/
def getContrastColor (hexColor : String) : String :=
  let color := replaceFirst hexColor "#"
  match parseIntHex (jsSubstr color 0 2), parseIntHex (jsSubstr color 2 2),
        parseIntHex (jsSubstr color 4 2) with
  | some r, some g, some b =>
    if 128000 < r * 299 + g * 587 + b * 114 then "#000000" else "#ffffff"
  | _, _, _ => "#ffffff"

/- ---------- Change Monitor (ThinkBlockMonitor, monitor.js) ---------- -/

/-- The scroll anchor captured before a processing pass, reduced to the
stored scrollTop and whether the anchor element is still attached to the
document when the restore runs (the guard
scrollAnchor.anchorElement && document.contains(anchorElement)). -/
structure ScrollAnchor where
  scrollTop : ℚ
  anchorPresent : Bool
deriving DecidableEq

/-- The height measurement record built before wrapping. -/
structure HeightMeasurements where
  totalOriginalHeight : ℚ
deriving DecidableEq

/-- A container handle as measured during the restore step: whether it is
still contained in the document, and its rendered height including the
vertical margins (offsetHeight plus the two parsed margins). -/
structure MeasuredContainer where
  inDom : Bool
  fullHeight : ℚ
deriving DecidableEq

/-- The processing results consumed by the restore step. -/
structure ProcessingResults where
  containers : List MeasuredContainer
deriving DecidableEq

/-- The summation loop over processingResults.containers in
performHeightAdjustedRestore: containers no longer in the document
contribute nothing. -/
def totalNewHeight (cs : List MeasuredContainer) : ℚ :=
  cs.foldl (fun acc c => if c.inDom then acc + c.fullHeight else acc) 0

/-- The height difference computed by performHeightAdjustedRestore: zero
when the containers list is empty, otherwise the measured new total minus
the recorded original total. -/
def totalHeightDifference (res : ProcessingResults) (hm : HeightMeasurements) : ℚ :=
  if 0 < res.containers.length then
    totalNewHeight res.containers - hm.totalOriginalHeight
  else 0

/-- Model of ThinkBlockMonitor.calculateHeightAdjustmentForAnchor: below a
5px magnitude the adjustment is zero; otherwise the difference is scaled by
0.7 plus 0.3 times the scroll ratio min(1, scrollTop / max(1, scrollHeight -
clientHeight)). -/
def calculateHeightAdjustmentForAnchor (anchor : ScrollAnchor)
    (diff scrollHeight clientHeight : ℚ) : ℚ :=
  if |diff| < 5 then 0
  else
    let scrollRatio := min 1 (anchor.scrollTop / max 1 (scrollHeight - clientHeight))
    diff * (7 / 10 + scrollRatio * (3 / 10))

/-- The corrected offset computed by performAnchorBasedRestore: the stored
anchor scrollTop plus the weighted height adjustment. -/
def anchorBasedTarget (anchor : ScrollAnchor)
    (diff scrollHeight clientHeight : ℚ) : ℚ :=
  anchor.scrollTop + calculateHeightAdjustmentForAnchor anchor diff scrollHeight clientHeight

/-- Model of ThinkBlockMonitor.performAnchorBasedRestore: the corrected
offset is applied through scrollToPosition (which clamps to non-negative)
only when it differs from the current offset by more than 5px; none models
the no-op. -/
def performAnchorBasedRestore (anchor : ScrollAnchor)
    (diff current scrollHeight clientHeight : ℚ) : Option ℚ :=
  let t := anchorBasedTarget anchor diff scrollHeight clientHeight
  if 5 < |t - current| then some (max 0 t) else none

/-- The fallback target of performHeightBasedRestore: the stored scrollTop
plus 80 percent of the height difference, clamped to non-negative. -/
def heightBasedTarget (anchor : ScrollAnchor) (diff : ℚ) : ℚ :=
  max 0 (anchor.scrollTop + diff * (8 / 10))

/-- Model of ThinkBlockMonitor.performHeightBasedRestore, with the same 5px
application threshold and clamping as the anchor path. -/
def performHeightBasedRestore (anchor : ScrollAnchor)
    (diff current : ℚ) : Option ℚ :=
  let t := heightBasedTarget anchor diff
  if 5 < |t - current| then some (max 0 t) else none

/-- Model of ThinkBlockMonitor.performHeightAdjustedRestore: compute the
height difference from the returned containers, then dispatch to the
anchor-based path when the anchor element is still in the document and to
the height-based fallback otherwise. -/
def performHeightAdjustedRestore (anchor : ScrollAnchor)
    (hm : HeightMeasurements) (res : ProcessingResults)
    (current scrollHeight clientHeight : ℚ) : Option ℚ :=
  let diff := totalHeightDifference res hm
  if anchor.anchorPresent then
    performAnchorBasedRestore anchor diff current scrollHeight clientHeight
  else
    performHeightBasedRestore anchor diff current

/- ---------- concrete sample elements used by the concrete theorems ---------- -/

/-- A start marker element as rendered by the host: decoded text content,
entity-escaped markup. -/
def elemS : Element :=
  { textContent := "<think>", innerHTML := "&lt;think&gt;",
    outerHTML := "<div>&lt;think&gt;</div>", hasParent := true,
    nextSiblingIsContainer := false, insideContainer := false }

/-- An interior content element. -/
def elemM : Element :=
  { textContent := "some reasoning", innerHTML := "some reasoning",
    outerHTML := "<div>some reasoning</div>", hasParent := true,
    nextSiblingIsContainer := false, insideContainer := false }

/-- An end marker element as rendered by the host. -/
def elemE : Element :=
  { textContent := "</think>", innerHTML := "&lt;/think&gt;",
    outerHTML := "<div>&lt;/think&gt;</div>", hasParent := true,
    nextSiblingIsContainer := false, insideContainer := false }

/-- A start marker element whose next sibling is a styled container. -/
def elemSC : Element :=
  { textContent := "<think>", innerHTML := "&lt;think&gt;",
    outerHTML := "<div>&lt;think&gt;</div>", hasParent := true,
    nextSiblingIsContainer := true, insideContainer := false }

/-- A range holding a start marker, one interior element and an end marker. -/
def sampleRange : Range :=
  { startElement := elemS, endElement := some elemE,
    elements := [elemS, elemM, elemE], processed := false }

/-- A range whose sole content is an immediately adjacent marker pair. -/
def emptyRange : Range :=
  { startElement := elemS, endElement := some elemE,
    elements := [elemS, elemE], processed := false }

/-- A range over the same markup as sampleRange but whose start element has
a styled container as next sibling. -/
def sampleRange2 : Range :=
  { startElement := elemSC, endElement := some elemE,
    elements := [elemSC, elemE], processed := false }

/- ---------- helper lemmas on the processed-set model ---------- -/

theorem mem_setAdd_self (S : List String) (k : String) : k ∈ setAdd S k := by
  unfold setAdd
  split
  · assumption
  · exact List.mem_cons_self _ _

theorem mem_setAdd_of_mem {S : List String} {k : String} (x : String)
    (hx : x ∈ S) : x ∈ setAdd S k := by
  unfold setAdd
  split
  · exact hx
  · exact List.mem_cons_of_mem _ hx

theorem mem_setDelete_iff (S : List String) (k x : String) :
    x ∈ setDelete S k ↔ x ∈ S ∧ x ≠ k := by
  induction S with
  | nil => simp [setDelete]
  | cons a S ih =>
    simp only [setDelete]
    split
    · rename_i hak
      rw [ih]
      subst hak
      simp only [List.mem_cons]
      constructor
      · rintro ⟨h1, h2⟩
        exact ⟨Or.inr h1, h2⟩
      · rintro ⟨h1 | h1, h2⟩
        · exact absurd h1 h2
        · exact ⟨h1, h2⟩
    · rename_i hak
      simp only [List.mem_cons, ih]
      constructor
      · rintro (h | ⟨h1, h2⟩)
        · subst h
          exact ⟨Or.inl rfl, hak⟩
        · exact ⟨Or.inr h1, h2⟩
      · rintro ⟨h1 | h1, h2⟩
        · exact Or.inl h1
        · exact Or.inr ⟨h1, h2⟩

theorem not_mem_setDelete_self (S : List String) (k : String) :
    k ∉ setDelete S k := by
  rw [mem_setDelete_iff]
  rintro ⟨_, h⟩
  exact h rfl

/- ---------- claim theorems: styler ---------- -/

/-- Claim C1 (code bug): wrapping a non-empty list of ranges with styling
enabled does construct and insert a styled container and does remove all
original range elements from the DOM, but the returned containers field is
empty rather than one handle per wrapped range, because wrapSingleRange
reaches its end without a return statement.  Evaluated at a concrete
single-range input. -/
theorem wrapThinkingBlocks_returns_no_container_handles :
    (wrapThinkingBlocks ⟨true⟩ [sampleRange]).1.containers = [] ∧
    (wrapThinkingBlocks ⟨true⟩ [sampleRange]).2.insertedContainers.length = 1 ∧
    (wrapThinkingBlocks ⟨true⟩ [sampleRange]).2.removedElements = sampleRange.elements := by
  decide

/-- Claim C6 (code bug): for a detector-recognised range whose sole content
is an immediately adjacent start and end marker pair, the built container
holds zero marker chips and two content lines, not two chips and no line:
processRangeElements tests textContent for the entity-escaped literal while
the detector only emits elements whose textContent is the decoded literal,
so the marker branches never fire. -/
theorem empty_range_chips_missing :
    isStartMarkerElem elemS = true ∧ isEndMarkerElem elemE = true ∧
    ((processRangeElements emptyRange).filter isMarkerChip).length = 0 ∧
    ((processRangeElements emptyRange).filter isContentLine).length = 2 := by
  decide

/-- Claim C8: with enabled set to false, the wrap operation performs no DOM
mutation and returns an empty container list, for every list of ranges. -/
theorem wrap_disabled_no_mutations (ranges : List Range) :
    wrapThinkingBlocks ⟨false⟩ ranges =
      ({ containers := [], totalNewHeight := 0, rangeCount := none },
       { insertedContainers := [], removedElements := [] }) := rfl

/- ---------- claim theorems: detector dedup ---------- -/

/-- Claim C5: for a range whose fingerprint is in the processed set, when no
styled container is found near the start element, isProcessed returns false
and evicts the fingerprint; when a container is found, the fingerprint is
retained and isProcessed returns true. -/
theorem isProcessed_eviction_invariant (S : List String) (r : Range)
    (hmem : generateRangeKey r ∈ S) :
    (containerNear r.startElement = false →
      isProcessed S r = (false, setDelete S (generateRangeKey r)) ∧
      generateRangeKey r ∉ (isProcessed S r).2) ∧
    (containerNear r.startElement = true → isProcessed S r = (true, S)) := by
  constructor
  · intro hc
    have h1 : isProcessed S r = (false, setDelete S (generateRangeKey r)) := by
      simp [isProcessed, hmem, hc]
    exact ⟨h1, by rw [h1]; exact not_mem_setDelete_self _ _⟩
  · intro hc
    simp [isProcessed, hmem, hc]

/-- Witness for C5 at a concrete range with no container near its start. -/
theorem isProcessed_eviction_invariant_witness :
    generateRangeKey sampleRange ∈ [generateRangeKey sampleRange] ∧
    ((containerNear sampleRange.startElement = false →
      isProcessed [generateRangeKey sampleRange] sampleRange =
        (false, setDelete [generateRangeKey sampleRange] (generateRangeKey sampleRange)) ∧
      generateRangeKey sampleRange ∉
        (isProcessed [generateRangeKey sampleRange] sampleRange).2) ∧
     (containerNear sampleRange.startElement = true →
      isProcessed [generateRangeKey sampleRange] sampleRange =
        (true, [generateRangeKey sampleRange]))) :=
  ⟨by decide, isProcessed_eviction_invariant _ _ (by decide)⟩

/-- Claim C10: the fingerprint depends only on the serialized outerHTML of
the start and end elements, so two ranges with identical serializations
share a key, and marking one processed makes isProcessed treat the other as
processed whenever a styled container is found near its start element. -/
theorem rangeKey_fingerprint_collision (r₁ r₂ : Range) (S : List String)
    (h₁ : r₁.startElement.outerHTML = r₂.startElement.outerHTML)
    (h₂ : (r₁.endElement.map Element.outerHTML).getD "" =
          (r₂.endElement.map Element.outerHTML).getD "")
    (h₃ : containerNear r₂.startElement = true) :
    generateRangeKey r₁ = generateRangeKey r₂ ∧
    (isProcessed (markAsProcessed S r₁) r₂).1 = true := by
  have hk : generateRangeKey r₁ = generateRangeKey r₂ := by
    unfold generateRangeKey
    rw [h₁, h₂]
  refine ⟨hk, ?_⟩
  have hmem : generateRangeKey r₂ ∈ markAsProcessed S r₁ := by
    unfold markAsProcessed
    rw [← hk]
    exact mem_setAdd_self _ _
  simp [isProcessed, hmem, h₃]

/-- Witness for C10: two distinct ranges over identically serialized marker
elements, the second with a styled container as next sibling of its start. -/
theorem rangeKey_fingerprint_collision_witness :
    sampleRange.startElement.outerHTML = sampleRange2.startElement.outerHTML ∧
    (sampleRange.endElement.map Element.outerHTML).getD "" =
      (sampleRange2.endElement.map Element.outerHTML).getD "" ∧
    containerNear sampleRange2.startElement = true ∧
    (generateRangeKey sampleRange = generateRangeKey sampleRange2 ∧
     (isProcessed (markAsProcessed [] sampleRange) sampleRange2).1 = true) :=
  ⟨by decide, by decide, by decide,
    rangeKey_fingerprint_collision sampleRange sampleRange2 []
      (by decide) (by decide) (by decide)⟩

/- ---------- helper lemmas on the marker-matching walk ---------- -/

theorem foldl_scanStep_closed (l : List Element) (rs : List Range)
    (h : ∀ x ∈ l, isStartMarkerElem x = false) :
    l.foldl scanStep (rs, none) = (rs, none) := by
  induction l with
  | nil => rfl
  | cons a l ih =>
    have ha := h a (List.mem_cons_self _ _)
    simp only [List.foldl_cons]
    rw [show scanStep (rs, none) a = (rs, none) by simp [scanStep, ha]]
    exact ih fun x hx => h x (List.mem_cons_of_mem _ hx)

theorem foldl_scanStep_open (l : List Element) (rs : List Range) (s : Element)
    (els : List Element) (h : ∀ x ∈ l, isEndMarkerElem x = false) :
    l.foldl scanStep (rs, some (s, els)) = (rs, some (s, els ++ l)) := by
  induction l generalizing els with
  | nil => simp
  | cons a l ih =>
    have ha := h a (List.mem_cons_self _ _)
    simp only [List.foldl_cons]
    rw [show scanStep (rs, some (s, els)) a = (rs, some (s, els ++ [a])) by
      simp [scanStep, ha]]
    rw [ih (els ++ [a]) fun x hx => h x (List.mem_cons_of_mem _ hx)]
    simp

/- ---------- claim theorems: detector scan ---------- -/

/-- Claim C3: for a candidate element sequence containing exactly one
well-formed start/end marker pair, a scan over a fresh processed set returns
exactly one range whose elements list spans precisely the start marker,
every element between the markers, and the end marker, in document order. -/
theorem scan_single_pair (pre mid post : List Element) (s e : Element)
    (hs : isStartMarkerElem s = true) (he : isEndMarkerElem e = true)
    (hpre : ∀ x ∈ pre, isStartMarkerElem x = false ∧ isEndMarkerElem x = false)
    (hmid : ∀ x ∈ mid, isStartMarkerElem x = false ∧ isEndMarkerElem x = false)
    (hpost : ∀ x ∈ post, isStartMarkerElem x = false ∧ isEndMarkerElem x = false) :
    scanDocument (pre ++ s :: (mid ++ e :: post)) [] =
      ([{ startElement := s, endElement := some e,
          elements := s :: (mid ++ [e]), processed := false }], []) := by
  unfold scanDocument processElements buildRanges
  rw [List.foldl_append]
  rw [foldl_scanStep_closed pre [] fun x hx => (hpre x hx).1]
  simp only [List.foldl_cons]
  rw [show scanStep ([], none) s = ([], some (s, [s])) by simp [scanStep, hs]]
  rw [List.foldl_append]
  rw [foldl_scanStep_open mid [] s [s] fun x hx => (hmid x hx).2]
  simp only [List.foldl_cons]
  rw [show scanStep ([], some (s, [s] ++ mid)) e =
      ([{ startElement := s, endElement := some e,
          elements := ([s] ++ mid) ++ [e], processed := false }], none) by
    simp [scanStep, he]]
  rw [foldl_scanStep_closed post _ fun x hx => (hpost x hx).1]
  simp [filterUnprocessed, isProcessed]

/-- Witness for C3 at a concrete three-element sequence. -/
theorem scan_single_pair_witness :
    isStartMarkerElem elemS = true ∧ isEndMarkerElem elemE = true ∧
    scanDocument ([] ++ elemS :: ([elemM] ++ elemE :: [])) [] =
      ([{ startElement := elemS, endElement := some elemE,
          elements := elemS :: ([elemM] ++ [elemE]), processed := false }], []) :=
  ⟨by decide, by decide,
    scan_single_pair [] [elemM] [] elemS elemE (by decide) (by decide)
      (by decide) (by decide) (by decide)⟩

/-- Claim C7: a start marker with no following end marker in the scanned
scope yields zero ranges: the open range is discarded at end of scan, never
emitted, and the processed set is left untouched. -/
theorem unterminated_start_no_ranges (pre mid : List Element) (s : Element)
    (S : List String)
    (hpre : ∀ x ∈ pre, isStartMarkerElem x = false)
    (hs : isStartMarkerElem s = true)
    (hmid : ∀ x ∈ mid, isEndMarkerElem x = false) :
    scanDocument (pre ++ s :: mid) S = ([], S) := by
  unfold scanDocument processElements buildRanges
  rw [List.foldl_append]
  rw [foldl_scanStep_closed pre [] hpre]
  simp only [List.foldl_cons]
  rw [show scanStep ([], none) s = ([], some (s, [s])) by simp [scanStep, hs]]
  rw [foldl_scanStep_open mid [] s [s] hmid]
  rfl

/-- Witness for C7 at a concrete unterminated sequence. -/
theorem unterminated_start_no_ranges_witness :
    isStartMarkerElem elemS = true ∧
    scanDocument ([] ++ elemS :: [elemM]) [] = ([], []) :=
  ⟨by decide,
    unterminated_start_no_ranges [] [elemM] elemS [] (by decide) (by decide)
      (by decide)⟩

/- ---------- claim theorems: contrast colour ---------- -/

/-- Claim C9: getContrastColor maps a hex background colour to black or
white by the luminance threshold with perceptual weights 0.299/0.587/0.114
on the parsed R/G/B bytes and threshold 128; in particular it returns black
for the near-white input #fefefe and white for the near-black input
#010101. -/
theorem getContrastColor_luminance (s : String) (r g b : Nat)
    (hr : parseIntHex (jsSubstr (replaceFirst s "#") 0 2) = some r)
    (hg : parseIntHex (jsSubstr (replaceFirst s "#") 2 2) = some g)
    (hb : parseIntHex (jsSubstr (replaceFirst s "#") 4 2) = some b) :
    getContrastColor s =
      (if 128 < (r : ℚ) * (299 / 1000) + (g : ℚ) * (587 / 1000) + (b : ℚ) * (114 / 1000)
       then "#000000" else "#ffffff") ∧
    getContrastColor "#fefefe" = "#000000" ∧
    getContrastColor "#010101" = "#ffffff" := by
  refine ⟨?_, by decide, by decide⟩
  simp only [getContrastColor]
  rw [hr, hg, hb]
  have hiff : 128000 < r * 299 + g * 587 + b * 114 ↔
      128 < (r : ℚ) * (299 / 1000) + (g : ℚ) * (587 / 1000) + (b : ℚ) * (114 / 1000) := by
    rw [show (r : ℚ) * (299 / 1000) + (g : ℚ) * (587 / 1000) + (b : ℚ) * (114 / 1000)
        = ((r * 299 + g * 587 + b * 114 : ℕ) : ℚ) / 1000 by push_cast; ring]
    rw [lt_div_iff₀ (show (0 : ℚ) < 1000 by norm_num)]
    rw [show (128 : ℚ) * 1000 = ((128000 : ℕ) : ℚ) by norm_num]
    exact Iff.symm Nat.cast_lt
  exact if_congr hiff rfl rfl

/-- Witness for C9 at the near-white input. -/
theorem getContrastColor_luminance_witness :
    parseIntHex (jsSubstr (replaceFirst "#fefefe" "#") 0 2) = some 254 ∧
    getContrastColor "#fefefe" =
      (if 128 < (254 : ℚ) * (299 / 1000) + (254 : ℚ) * (587 / 1000) + (254 : ℚ) * (114 / 1000)
       then "#000000" else "#ffffff") :=
  ⟨by decide,
    (getContrastColor_luminance "#fefefe" 254 254 254 (by decide) (by decide)
      (by decide)).1⟩

/- ---------- claim theorems: scroll correction scenario ---------- -/

/-- Claim C2: in a pass where the range elements measured 120px of original
height and the single new container measures 80px, the computed height
difference is -40; on the anchor path the corrected offset lies between the
stored anchor scrollTop minus 40 and minus 28 (a 70 to 100 percent share of
the delta scaling with scroll depth), and on the fallback path the target is
exactly the stored scrollTop minus 32 (80 percent of 40), clamped to a
non-negative scroll position. -/
theorem scroll_correction_scenario (st current scrollHeight clientHeight : ℚ)
    (hst : 0 ≤ st) :
    totalHeightDifference ⟨[⟨true, 80⟩]⟩ ⟨120⟩ = -40 ∧
    st - 40 ≤ anchorBasedTarget ⟨st, true⟩ (totalHeightDifference ⟨[⟨true, 80⟩]⟩ ⟨120⟩)
        scrollHeight clientHeight ∧
    anchorBasedTarget ⟨st, true⟩ (totalHeightDifference ⟨[⟨true, 80⟩]⟩ ⟨120⟩)
        scrollHeight clientHeight ≤ st - 28 ∧
    heightBasedTarget ⟨st, false⟩ (totalHeightDifference ⟨[⟨true, 80⟩]⟩ ⟨120⟩) =
      max 0 (st - 32) ∧
    performHeightAdjustedRestore ⟨st, true⟩ ⟨120⟩ ⟨[⟨true, 80⟩]⟩ current
        scrollHeight clientHeight =
      performAnchorBasedRestore ⟨st, true⟩ (-40) current scrollHeight clientHeight ∧
    performHeightAdjustedRestore ⟨st, false⟩ ⟨120⟩ ⟨[⟨true, 80⟩]⟩ current
        scrollHeight clientHeight =
      performHeightBasedRestore ⟨st, false⟩ (-40) current := by
  have hdiff : totalHeightDifference ⟨[⟨true, 80⟩]⟩ ⟨120⟩ = -40 := by
    simp [totalHeightDifference, totalNewHeight]
    norm_num
  have habs : ¬ (|(-40 : ℚ)| < 5) := by
    rw [abs_of_nonpos (by norm_num : (-40 : ℚ) ≤ 0)]
    norm_num
  have hcalc : calculateHeightAdjustmentForAnchor ⟨st, true⟩ (-40) scrollHeight clientHeight
      = -28 - 12 * min 1 (st / max 1 (scrollHeight - clientHeight)) := by
    unfold calculateHeightAdjustmentForAnchor
    rw [if_neg habs]
    ring
  have hq0 : 0 ≤ min 1 (st / max 1 (scrollHeight - clientHeight)) :=
    le_min (by norm_num)
      (div_nonneg hst (le_trans (by norm_num) (le_max_left 1 _)))
  have hq1 : min 1 (st / max 1 (scrollHeight - clientHeight)) ≤ 1 := min_le_left _ _
  refine ⟨hdiff, ?_, ?_, ?_, ?_, ?_⟩
  · rw [hdiff]
    unfold anchorBasedTarget
    rw [hcalc]
    linarith
  · rw [hdiff]
    unfold anchorBasedTarget
    rw [hcalc]
    linarith
  · rw [hdiff]
    unfold heightBasedTarget
    rw [show st + (-40 : ℚ) * (8 / 10) = st - 32 by ring]
  · unfold performHeightAdjustedRestore
    rw [hdiff]
    simp
  · unfold performHeightAdjustedRestore
    rw [hdiff]
    simp

/-- Witness for C2 at a concrete scroll state. -/
theorem scroll_correction_scenario_witness :
    0 ≤ (100 : ℚ) ∧
    (totalHeightDifference ⟨[⟨true, 80⟩]⟩ ⟨120⟩ = -40 ∧
     (100 : ℚ) - 40 ≤ anchorBasedTarget ⟨100, true⟩
        (totalHeightDifference ⟨[⟨true, 80⟩]⟩ ⟨120⟩) 1000 500 ∧
     anchorBasedTarget ⟨100, true⟩
        (totalHeightDifference ⟨[⟨true, 80⟩]⟩ ⟨120⟩) 1000 500 ≤ (100 : ℚ) - 28 ∧
     heightBasedTarget ⟨100, false⟩ (totalHeightDifference ⟨[⟨true, 80⟩]⟩ ⟨120⟩) =
       max 0 ((100 : ℚ) - 32) ∧
     performHeightAdjustedRestore ⟨100, true⟩ ⟨120⟩ ⟨[⟨true, 80⟩]⟩ 0 1000 500 =
       performAnchorBasedRestore ⟨100, true⟩ (-40) 0 1000 500 ∧
     performHeightAdjustedRestore ⟨100, false⟩ ⟨120⟩ ⟨[⟨true, 80⟩]⟩ 0 1000 500 =
       performHeightBasedRestore ⟨100, false⟩ (-40) 0) :=
  ⟨by norm_num, scroll_correction_scenario 100 0 1000 500 (by norm_num)⟩

/- ---------- helper lemmas on the processed filter ---------- -/

theorem key_survives_filter (rs : List Range) (S : List String) (k : String)
    (hk : k ∈ S)
    (h : ∀ r ∈ (filterUnprocessed S rs).1, containerNear r.startElement = true) :
    k ∈ (filterUnprocessed S rs).2 := by
  induction rs generalizing S with
  | nil => exact hk
  | cons r rs ih =>
    by_cases hmem : generateRangeKey r ∈ S
    · by_cases hc : containerNear r.startElement = true
      · have hfu : filterUnprocessed S (r :: rs) = filterUnprocessed S rs := by
          simp [filterUnprocessed, isProcessed, hmem, hc]
        rw [hfu] at h ⊢
        exact ih S hk h
      · have hfu : filterUnprocessed S (r :: rs) =
            (r :: (filterUnprocessed (setDelete S (generateRangeKey r)) rs).1,
             (filterUnprocessed (setDelete S (generateRangeKey r)) rs).2) := by
          simp [filterUnprocessed, isProcessed, hmem, hc]
        rw [hfu] at h
        exact absurd (h r (List.mem_cons_self _ _)) hc
    · have hfu : filterUnprocessed S (r :: rs) =
          (r :: (filterUnprocessed S rs).1, (filterUnprocessed S rs).2) := by
        simp [filterUnprocessed, isProcessed, hmem]
      rw [hfu] at h ⊢
      exact ih S hk fun r' hr' => h r' (List.mem_cons_of_mem _ hr')

theorem filter_members_classified (rs : List Range) (S : List String)
    (h : ∀ r ∈ (filterUnprocessed S rs).1, containerNear r.startElement = true) :
    ∀ r ∈ rs, containerNear r.startElement = true ∧
      (generateRangeKey r ∈ (filterUnprocessed S rs).2 ∨
       r ∈ (filterUnprocessed S rs).1) := by
  induction rs generalizing S with
  | nil => intro r hr; cases hr
  | cons r₀ rs ih =>
    by_cases hmem : generateRangeKey r₀ ∈ S
    · by_cases hc : containerNear r₀.startElement = true
      · have hfu : filterUnprocessed S (r₀ :: rs) = filterUnprocessed S rs := by
          simp [filterUnprocessed, isProcessed, hmem, hc]
        rw [hfu] at h ⊢
        intro r hr
        rcases List.mem_cons.mp hr with rfl | hr'
        · exact ⟨hc, Or.inl (key_survives_filter rs S _ hmem h)⟩
        · exact ih S h r hr'
      · have hfu : filterUnprocessed S (r₀ :: rs) =
            (r₀ :: (filterUnprocessed (setDelete S (generateRangeKey r₀)) rs).1,
             (filterUnprocessed (setDelete S (generateRangeKey r₀)) rs).2) := by
          simp [filterUnprocessed, isProcessed, hmem, hc]
        rw [hfu] at h
        exact absurd (h r₀ (List.mem_cons_self _ _)) hc
    · have hfu : filterUnprocessed S (r₀ :: rs) =
          (r₀ :: (filterUnprocessed S rs).1, (filterUnprocessed S rs).2) := by
        simp [filterUnprocessed, isProcessed, hmem]
      rw [hfu] at h ⊢
      intro r hr
      rcases List.mem_cons.mp hr with rfl | hr'
      · exact ⟨h r (List.mem_cons_self _ _), Or.inr (List.mem_cons_self _ _)⟩
      · have hrec := ih S (fun r' hr'' => h r' (List.mem_cons_of_mem _ hr'')) r hr'
        refine ⟨hrec.1, ?_⟩
        rcases hrec.2 with hkey | hkept
        · exact Or.inl hkey
        · exact Or.inr (List.mem_cons_of_mem _ hkept)

theorem mem_foldl_markAsProcessed (rs : List Range) (S : List String)
    (k : String) (hk : k ∈ S) : k ∈ rs.foldl markAsProcessed S := by
  induction rs generalizing S with
  | nil => exact hk
  | cons r rs ih =>
    simp only [List.foldl_cons]
    exact ih _ (mem_setAdd_of_mem k hk)

theorem key_mem_foldl_markAsProcessed (rs : List Range) (S : List String)
    (r : Range) (hr : r ∈ rs) :
    generateRangeKey r ∈ rs.foldl markAsProcessed S := by
  induction rs generalizing S with
  | nil => cases hr
  | cons r₀ rs ih =>
    simp only [List.foldl_cons]
    rcases List.mem_cons.mp hr with rfl | hr'
    · exact mem_foldl_markAsProcessed rs _ _ (mem_setAdd_self S _)
    · exact ih _ hr'

theorem filterUnprocessed_all_true (rs : List Range) (S : List String)
    (h : ∀ r ∈ rs, isProcessed S r = (true, S)) :
    filterUnprocessed S rs = ([], S) := by
  induction rs with
  | nil => rfl
  | cons r rs ih =>
    have hp := h r (List.mem_cons_self _ _)
    have hfu : filterUnprocessed S (r :: rs) = filterUnprocessed S rs := by
      simp [filterUnprocessed, hp]
    rw [hfu]
    exact ih fun r' hr' => h r' (List.mem_cons_of_mem _ hr')

/- ---------- claim theorem: idempotence of processed tracking ---------- -/

/-- Claim C4: scanning twice over the same candidate snapshot, after
markAsProcessed was called on every range returned by the first scan, and
with a styled container still present near the start element of each of
those ranges (no container removed), returns zero ranges the second time. -/
theorem scan_idempotent_after_mark (l : List Element) (S0 : List String)
    (h : ∀ r ∈ (scanDocument l S0).1, containerNear r.startElement = true) :
    (scanDocument l
        (((scanDocument l S0).1).foldl markAsProcessed (scanDocument l S0).2)).1 =
      [] := by
  simp only [scanDocument, processElements] at h ⊢
  have hall : ∀ r ∈ buildRanges l,
      isProcessed
        (((filterUnprocessed S0 (buildRanges l)).1).foldl markAsProcessed
          (filterUnprocessed S0 (buildRanges l)).2) r =
      (true,
        ((filterUnprocessed S0 (buildRanges l)).1).foldl markAsProcessed
          (filterUnprocessed S0 (buildRanges l)).2) := by
    intro r hr
    have hclass := filter_members_classified (buildRanges l) S0 h r hr
    have hkey : generateRangeKey r ∈
        ((filterUnprocessed S0 (buildRanges l)).1).foldl markAsProcessed
          (filterUnprocessed S0 (buildRanges l)).2 := by
      rcases hclass.2 with hk | hkept
      · exact mem_foldl_markAsProcessed _ _ _ hk
      · exact key_mem_foldl_markAsProcessed _ _ r hkept
    simp [isProcessed, hkey, hclass.1]
  rw [filterUnprocessed_all_true (buildRanges l) _ hall]

/-- Witness for C4: a concrete snapshot whose start element has a styled
container as next sibling; the second scan returns nothing. -/
theorem scan_idempotent_after_mark_witness :
    (∀ r ∈ (scanDocument [elemSC, elemE] []).1, containerNear r.startElement = true) ∧
    (scanDocument [elemSC, elemE]
        (((scanDocument [elemSC, elemE] []).1).foldl markAsProcessed
          (scanDocument [elemSC, elemE] []).2)).1 = [] :=
  ⟨by decide, scan_idempotent_after_mark [elemSC, elemE] [] (by decide)⟩

end ThinkInsideTheBox
